import Mathlib

/-!
Shallow embedding of the cpp-geometry-utils kernel (Point, Line, Plane,
Polygon and the utility layer) over the real numbers, together with
theorems settling the specification claims.  Floating-point `float` and
`double` values are modelled by `ℝ`; thrown exceptions are modelled by
`Except GeomError`; `std::optional` by `Option`.
-/

namespace Geometry

/-- Error taxonomy of the kernel (spec section 7): normalization of a
zero vector, scalar division by zero, invalid plane construction, and
empty polygon input. -/
inductive GeomError where
  | domainError
  | divisionByZero
  | invalidArgument
  | emptyInput
deriving DecidableEq

/-- Threshold 1e-6 used throughout the source for near-zero tests. -/
noncomputable def eps : ℝ := 1e-6

/-- Vector/point value type with three components (Point.h). -/
@[ext]
structure Point where
  x : ℝ
  y : ℝ
  z : ℝ

instance : Add Point := ⟨fun a b => ⟨a.x + b.x, a.y + b.y, a.z + b.z⟩⟩

instance : Sub Point := ⟨fun a b => ⟨a.x - b.x, a.y - b.y, a.z - b.z⟩⟩

@[simp]
theorem Point.add_def (a b : Point) : a + b = ⟨a.x + b.x, a.y + b.y, a.z + b.z⟩ := rfl

@[simp]
theorem Point.sub_def (a b : Point) : a - b = ⟨a.x - b.x, a.y - b.y, a.z - b.z⟩ := rfl

/-- Scalar multiplication `operator*(Point, double)` (Point.h). -/
def Point.smul (p : Point) (s : ℝ) : Point := ⟨p.x * s, p.y * s, p.z * s⟩

/-- Scalar division `operator/(Point, double)`: the source multiplies by
the reciprocal (Point.h `operator/=`). Its exactly-zero divisor check is
modelled at the call sites that can reach it. -/
noncomputable def Point.divScalar (p : Point) (s : ℝ) : Point := p.smul (1 / s)

/-- Dot product of two points (Point.h `dot_product`). -/
def dot_product (a b : Point) : ℝ := a.x * b.x + a.y * b.y + a.z * b.z

/-- Cross product of two points (Point.h `cross_product`). -/
def cross_product (a b : Point) : Point :=
  ⟨a.y * b.z - a.z * b.y, a.z * b.x - a.x * b.z, a.x * b.y - a.y * b.x⟩

/-- Euclidean norm, `std::hypot(x, y, z)` (Point.h `magnitude`). -/
noncomputable def Point.magnitude (p : Point) : ℝ :=
  Real.sqrt (p.x ^ 2 + p.y ^ 2 + p.z ^ 2)

/-- Squared norm (Point.h `magnitude_squared`). -/
def Point.magnitude_squared (p : Point) : ℝ := p.x * p.x + p.y * p.y + p.z * p.z

/-- Euclidean distance between two points (Point.h `distance_to`). -/
noncomputable def Point.distance_to (p other : Point) : ℝ :=
  Real.sqrt ((p.x - other.x) ^ 2 + (p.y - other.y) ^ 2 + (p.z - other.z) ^ 2)

/-- Normalization (Point.h `normalized`): throws when the magnitude is
exactly zero, otherwise divides by the magnitude. -/
noncomputable def Point.normalized (p : Point) : Except GeomError Point :=
  if p.magnitude = 0 then .error .domainError
  else .ok (p.divScalar p.magnitude)

/-- Finite segment given by two endpoints (Line.h). The source field
`end` is a reserved word in Lean and is rendered `endp`. -/
structure Line where
  start : Point
  endp : Point

/-- Unit direction of a segment (Line.h `direction`); fails through
`normalized` when the segment is degenerate. -/
noncomputable def Line.direction (L : Line) : Except GeomError Point :=
  (L.endp - L.start).normalized

/-- Projection parameter `t` computed by `Line::project` before clamping. -/
noncomputable def Line.tparam (L : Line) (p : Point) : ℝ :=
  dot_product (p - L.start) (L.endp - L.start) / (L.endp - L.start).magnitude_squared

/-- Orthogonal projection of a point onto the segment (Line.h `project`):
computes `t` and clamps it to [0, 1]. -/
noncomputable def Line.project (L : Line) (p : Point) : Point :=
  let vec := L.endp - L.start
  let t := dot_product (p - L.start) vec / vec.magnitude_squared
  if t ≤ 0 then L.start
  else if 1 ≤ t then L.endp
  else L.start + vec.smul t

/-- Reflection of a point about the segment (Line.h `reflect`). -/
noncomputable def Line.reflect (L : Line) (p : Point) : Point :=
  (L.project p).smul 2 - p

/-- Shortest distance from a point to the segment (Line.h `distance_to`). -/
noncomputable def Line.distance_to (L : Line) (p : Point) : ℝ :=
  p.distance_to (L.project p)

/-- Plane as a reference point plus a (unit, by construction) normal
(Plane.h). -/
structure Plane where
  point : Point
  normal : Point

/-- Constant term of the implicit plane equation (Plane.cpp `d`). -/
noncomputable def Plane.d (P : Plane) : ℝ := -(dot_product P.normal P.point)

/-- Signed distance from a point to the plane (Plane.cpp). -/
noncomputable def Plane.signed_distance_to (P : Plane) (p : Point) : ℝ :=
  dot_product P.normal p + P.d

/-- Intersection of the (extended) segment with the plane
(Plane.cpp `intersection_with`). -/
noncomputable def Plane.intersection_with (P : Plane) (L : Line) : Option Point :=
  let dir := L.endp - L.start
  let dt := dot_product P.normal dir
  if |dt| < eps then none
  else some (L.start + dir.smul (-(P.signed_distance_to L.start) / dt))

/-- Reflection of a point about the plane (Plane.cpp `reflect`). -/
noncomputable def Plane.reflect (P : Plane) (p : Point) : Point :=
  p - P.normal.smul (2 * P.signed_distance_to p)

/-- Plane constructor from a normal and a point (Plane.cpp). -/
noncomputable def planeFromNormalPoint (normal point : Point) : Except GeomError Plane :=
  if normal.magnitude < eps then .error .invalidArgument
  else .ok ⟨point, normal.divScalar normal.magnitude⟩

/-- Plane constructor from three points (Plane.cpp). -/
noncomputable def planeFromPoints (p1 p2 p3 : Point) : Except GeomError Plane :=
  let n := cross_product (p2 - p1) (p3 - p1)
  if n.magnitude < eps then .error .invalidArgument
  else .ok ⟨p1, n.divScalar n.magnitude⟩

/-- Reference point recovered by the coefficient constructor
(Plane.cpp, the three-way branch on the coefficient magnitudes). -/
noncomputable def coeffPoint (a b c d : ℝ) : Point :=
  if |a| ≥ |b| ∧ |a| ≥ |c| ∧ |a| > eps then ⟨-d / a, 0, 0⟩
  else if |b| ≥ |a| ∧ |b| ≥ |c| ∧ |b| > eps then ⟨0, -d / b, 0⟩
  else ⟨0, 0, -d / c⟩

/-- The coefficient the constructor divides by in each branch. -/
noncomputable def coeffDivisor (a b c : ℝ) : ℝ :=
  if |a| ≥ |b| ∧ |a| ≥ |c| ∧ |a| > eps then a
  else if |b| ≥ |a| ∧ |b| ≥ |c| ∧ |b| > eps then b
  else c

/-- Plane constructor from implicit coefficients (Plane.cpp). -/
noncomputable def planeFromCoefficients (a b c d : ℝ) : Except GeomError Plane :=
  let n : Point := ⟨a, b, c⟩
  if n.magnitude < eps then .error .invalidArgument
  else .ok ⟨coeffPoint a b c d, n.divScalar n.magnitude⟩

/-- Polygon: ordered vertex list (Polygon.h). -/
structure Polygon where
  vertices : List Point

/-- Wrap-around pairs `(v[i], v[(i+1) % n])` visited by the source loops
over consecutive vertices. -/
def Polygon.cyclicPairs (P : Polygon) : List (Point × Point) :=
  P.vertices.zip (P.vertices.drop 1 ++ P.vertices.take 1)

/-- Vertex access `v[i % n]` with the source's wrap-around indexing. -/
def Polygon.vertexAt (P : Polygon) (i : ℕ) : Point :=
  P.vertices.getD (i % P.vertices.length) ⟨0, 0, 0⟩

/-- Z-component of the cross product of the two successive edge vectors
of a vertex triple (Polygon.cpp `is_convex` loop body). -/
def crossZ (p1 p2 p3 : Point) : ℝ :=
  (p2.x - p1.x) * (p3.y - p2.y) - (p2.y - p1.y) * (p3.x - p2.x)

/-- The sequence of `cross_z` values computed by the `is_convex` loop,
one per vertex index. -/
noncomputable def Polygon.convexSigns (P : Polygon) : List ℝ :=
  (List.range P.vertices.length).map fun i =>
    crossZ (P.vertexAt i) (P.vertexAt (i + 1)) (P.vertexAt (i + 2))

/-- Loop of `Polygon::is_convex` carrying the `sign` and `sign_set`
flags exactly as the source does. -/
noncomputable def isConvexGo (sign signSet : Bool) : List ℝ → Bool
  | [] => true
  | c :: rest =>
    if !signSet then isConvexGo (decide (c > 0)) true rest
    else if decide (c > 0) ≠ sign then false
    else isConvexGo sign signSet rest

/-- Convexity test (Polygon.cpp `is_convex`). -/
noncomputable def Polygon.is_convex (P : Polygon) : Bool :=
  if P.vertices.length < 3 then false
  else isConvexGo false false P.convexSigns

/-- Convexity test as the claim describes it: the first NON-ZERO cross
product establishes the orientation and the polygon is non-convex
exactly when some non-zero cross product has the opposite sign.  Stated
from the claim's words, for comparison with `Polygon.is_convex`. -/
noncomputable def Polygon.isConvexClaim (P : Polygon) : Bool :=
  if P.vertices.length < 3 then false
  else
    match P.convexSigns.filter fun c => decide (c ≠ 0) with
    | [] => true
    | c0 :: rest => rest.all fun c => decide (c > 0) == decide (c0 > 0)

/-- Centroid (Polygon.cpp `centroid`): fails on an empty polygon,
returns the vertex for one vertex, the midpoint for two, and otherwise
the area-weighted sums divided by the accumulated signed area, with the
vertex averages ADDED ONTO the accumulated sums when that area is within
1e-6 of zero. -/
noncomputable def Polygon.centroid (P : Polygon) : Except GeomError Point :=
  if P.vertices.length = 0 then .error .emptyInput
  else if P.vertices.length = 1 then .ok (P.vertices.getD 0 ⟨0, 0, 0⟩)
  else if P.vertices.length = 2 then
    let v0 := P.vertices.getD 0 ⟨0, 0, 0⟩
    let v1 := P.vertices.getD 1 ⟨0, 0, 0⟩
    .ok ⟨(v0.x + v1.x) * (1 / 2), (v0.y + v1.y) * (1 / 2), (v0.z + v1.z) * (1 / 2)⟩
  else
    let area_sum := (P.cyclicPairs.map fun q =>
      (q.1.x * q.2.y - q.2.x * q.1.y) * (1 / 2)).sum
    let cx := (P.cyclicPairs.map fun q =>
      (q.1.x + q.2.x) * ((q.1.x * q.2.y - q.2.x * q.1.y) * (1 / 2)) / 3).sum
    let cy := (P.cyclicPairs.map fun q =>
      (q.1.y + q.2.y) * ((q.1.x * q.2.y - q.2.x * q.1.y) * (1 / 2)) / 3).sum
    let n : ℝ := P.vertices.length
    if |area_sum| < eps then
      .ok ⟨cx + (P.vertices.map fun v => v.x / n).sum,
           cy + (P.vertices.map fun v => v.y / n).sum,
           0 + (P.vertices.map fun v => v.z / n).sum⟩
    else
      .ok ⟨cx / area_sum, cy / area_sum, 0⟩

/-- Axis-aligned bounding box (Polygon.cpp `bounding_box`): the empty
polygon yields the sentinel pair of origin points. -/
noncomputable def Polygon.bounding_box (P : Polygon) : Point × Point :=
  match P.vertices with
  | [] => (⟨0, 0, 0⟩, ⟨0, 0, 0⟩)
  | v :: _ =>
    (P.vertices.foldl (fun m w => ⟨min m.x w.x, min m.y w.y, min m.z w.z⟩) v,
     P.vertices.foldl (fun m w => ⟨max m.x w.x, max m.y w.y, max m.z w.z⟩) v)

namespace utils

/-- Skew-segment distance (utils.cpp `distance(Line, Line)`), with the
exceptions of the two `direction()` calls propagated. -/
noncomputable def distanceLL (l1 l2 : Line) : Except GeomError ℝ :=
  match l1.direction with
  | .error e => .error e
  | .ok dir1 =>
    match l2.direction with
    | .error e => .error e
    | .ok dir2 =>
      let cross := cross_product dir1 dir2
      if cross.magnitude < eps then .ok (l1.distance_to l2.start)
      else .ok (|dot_product (l2.start - l1.start) cross| / cross.magnitude)

/-- Planar segment-segment intersection (utils.cpp
`intersection(Line, Line)`), with the exceptions of the two
`direction()` calls propagated. -/
noncomputable def intersectionLL (l1 l2 : Line) : Except GeomError (Option Point) :=
  match l1.direction with
  | .error e => .error e
  | .ok dir1 =>
    match l2.direction with
    | .error e => .error e
    | .ok dir2 =>
      let cz := dir1.x * dir2.y - dir1.y * dir2.x
      if |cz| < eps then .ok none
      else
        let t1 := ((l2.start.x - l1.start.x) * dir2.y -
          (l2.start.y - l1.start.y) * dir2.x) / cz
        .ok (some (l1.start + dir1.smul t1))

end utils

/-! Helper lemmas shared by several claims. -/

theorem eps_pos : 0 < eps := by norm_num [eps]

theorem Point.magnitude_nonneg (p : Point) : 0 ≤ p.magnitude :=
  Real.sqrt_nonneg _

theorem Point.magnitude_eq_zero_iff (p : Point) :
    p.magnitude = 0 ↔ p = ⟨0, 0, 0⟩ := by
  constructor
  · intro h
    have hle : p.x ^ 2 + p.y ^ 2 + p.z ^ 2 ≤ 0 :=
      Real.sqrt_eq_zero'.mp h
    have hx : p.x = 0 := by nlinarith [sq_nonneg p.x, sq_nonneg p.y, sq_nonneg p.z]
    have hy : p.y = 0 := by nlinarith [sq_nonneg p.x, sq_nonneg p.y, sq_nonneg p.z]
    have hz : p.z = 0 := by nlinarith [sq_nonneg p.x, sq_nonneg p.y, sq_nonneg p.z]
    ext <;> assumption
  · intro h
    subst h
    simp [Point.magnitude]

theorem Point.sub_eq_zero_iff (a b : Point) :
    a - b = (⟨0, 0, 0⟩ : Point) ↔ a = b := by
  simp [Point.ext_iff, sub_eq_zero]

theorem Point.divScalar_magnitude_unit (p : Point) (hm : p.magnitude ≠ 0) :
    (p.divScalar p.magnitude).magnitude = 1 := by
  have hs : 0 ≤ p.x ^ 2 + p.y ^ 2 + p.z ^ 2 := by positivity
  have hsq : p.magnitude ^ 2 = p.x ^ 2 + p.y ^ 2 + p.z ^ 2 :=
    Real.sq_sqrt hs
  have key : (p.x * (1 / p.magnitude)) ^ 2 + (p.y * (1 / p.magnitude)) ^ 2 +
      (p.z * (1 / p.magnitude)) ^ 2 = 1 := by
    calc (p.x * (1 / p.magnitude)) ^ 2 + (p.y * (1 / p.magnitude)) ^ 2 +
        (p.z * (1 / p.magnitude)) ^ 2
        = (p.x ^ 2 + p.y ^ 2 + p.z ^ 2) * (1 / p.magnitude) ^ 2 := by ring
      _ = p.magnitude ^ 2 * (1 / p.magnitude) ^ 2 := by rw [hsq]
      _ = 1 := by field_simp
  show Real.sqrt _ = 1
  simp only [Point.divScalar, Point.smul]
  rw [key, Real.sqrt_one]

theorem Line.direction_ok (L : Line) (h : L.start ≠ L.endp) :
    ∃ dv, L.direction = .ok dv := by
  have hne : L.endp - L.start ≠ (⟨0, 0, 0⟩ : Point) := by
    intro hc
    exact h ((Point.sub_eq_zero_iff _ _).mp hc).symm
  have hm : (L.endp - L.start).magnitude ≠ 0 := by
    intro hc
    exact hne ((Point.magnitude_eq_zero_iff _).mp hc)
  refine ⟨(L.endp - L.start).divScalar (L.endp - L.start).magnitude, ?_⟩
  unfold Line.direction Point.normalized
  rw [if_neg hm]

theorem Line.direction_err (L : Line) (h : L.start = L.endp) :
    L.direction = .error .domainError := by
  have hz : L.endp - L.start = (⟨0, 0, 0⟩ : Point) :=
    (Point.sub_eq_zero_iff _ _).mpr h.symm
  have hm : (L.endp - L.start).magnitude = 0 :=
    (Point.magnitude_eq_zero_iff _).mpr hz
  unfold Line.direction Point.normalized
  rw [if_pos hm]

/-! Claim C1: behaviour of `Point::normalized`. -/

/-- Claim C1 (amended): `Point::normalized` fails with a DomainError
exactly when the magnitude is EXACTLY zero; for every vector of nonzero
magnitude — even one below the 1e-6 threshold — it returns the vector
divided by its magnitude. -/
theorem normalized_fails_iff_exact_zero (v : Point) :
    (v.normalized = .error .domainError ↔ v.magnitude = 0)
    ∧ (v.magnitude ≠ 0 → v.normalized = .ok (v.divScalar v.magnitude)) := by
  unfold Point.normalized
  refine ⟨⟨fun h => ?_, fun hm => by rw [if_pos hm]⟩, fun hm => by rw [if_neg hm]⟩
  by_contra hm
  rw [if_neg hm] at h
  exact Except.noConfusion h

/-- Witness for C1: the vector (3, 4, 0) has magnitude 5 and is
normalized successfully. -/
theorem normalized_fails_iff_exact_zero_witness :
    Point.magnitude ⟨3, 4, 0⟩ ≠ 0 ∧
    Point.normalized ⟨3, 4, 0⟩ =
      .ok (Point.divScalar ⟨3, 4, 0⟩ (Point.magnitude ⟨3, 4, 0⟩)) := by
  have hm : Point.magnitude ⟨3, 4, 0⟩ = 5 := by
    simp only [Point.magnitude]
    rw [show (3 : ℝ) ^ 2 + (4 : ℝ) ^ 2 + (0 : ℝ) ^ 2 = (5 : ℝ) ^ 2 by norm_num]
    exact Real.sqrt_sq (by norm_num)
  have hne : Point.magnitude ⟨3, 4, 0⟩ ≠ 0 := by rw [hm]; norm_num
  exact ⟨hne, (normalized_fails_iff_exact_zero ⟨3, 4, 0⟩).2 hne⟩

/-- Counterexample to C1 as stated: the vector (1e-7, 0, 0) has
magnitude 1e-7, strictly below the 1e-6 threshold, yet `normalized`
succeeds and returns (1, 0, 0) instead of failing with a DomainError. -/
theorem normalized_near_zero_returns_ok :
    Point.magnitude ⟨1e-7, 0, 0⟩ < eps ∧
    Point.normalized ⟨1e-7, 0, 0⟩ = .ok ⟨1, 0, 0⟩ := by
  have hm : Point.magnitude ⟨1e-7, 0, 0⟩ = 1e-7 := by
    simp only [Point.magnitude]
    rw [show (1e-7 : ℝ) ^ 2 + (0 : ℝ) ^ 2 + (0 : ℝ) ^ 2 = (1e-7 : ℝ) ^ 2 by ring]
    exact Real.sqrt_sq (by norm_num)
  refine ⟨by rw [hm]; norm_num [eps], ?_⟩
  unfold Point.normalized
  rw [hm, if_neg (by norm_num : (1e-7 : ℝ) ≠ 0)]
  have hdiv : Point.divScalar ⟨1e-7, 0, 0⟩ 1e-7 = ⟨1, 0, 0⟩ := by
    simp only [Point.divScalar, Point.smul, Point.mk.injEq]
    norm_num
  rw [hdiv]

/-! Claim C2: behaviour of `Plane::intersection_with`. -/

/-- Claim C2: `Plane::intersection_with` returns none exactly when
the dot product of the normal with end - start is below 1e-6 in
magnitude; otherwise it unconditionally returns
start + (end - start) * t with t = -signed_distance_to(start) / dot,
with no clamping of t to the segment extent. -/
theorem intersection_with_unclamped (P : Plane) (L : Line) :
    (P.intersection_with L = none ↔
      |dot_product P.normal (L.endp - L.start)| < eps)
    ∧ (eps ≤ |dot_product P.normal (L.endp - L.start)| →
      P.intersection_with L = some (L.start + (L.endp - L.start).smul
        (-(P.signed_distance_to L.start) /
          dot_product P.normal (L.endp - L.start)))) := by
  simp only [Plane.intersection_with]
  refine ⟨⟨fun h => ?_, fun hlt => by rw [if_pos hlt]⟩,
    fun hge => by rw [if_neg (not_lt.mpr hge)]⟩
  by_contra hge
  rw [if_neg hge] at h
  exact Option.noConfusion h

/-- Witness for C2: the XY plane intersected with the vertical segment
(1,1,-1)-(1,1,3) yields (1,1,0), the spec's concrete scenario 4. -/
theorem intersection_with_unclamped_witness :
    Plane.intersection_with ⟨⟨0, 0, 0⟩, ⟨0, 0, 1⟩⟩ ⟨⟨1, 1, -1⟩, ⟨1, 1, 3⟩⟩ =
      some ⟨1, 1, 0⟩ := by
  have h2 := (intersection_with_unclamped ⟨⟨0, 0, 0⟩, ⟨0, 0, 1⟩⟩
    ⟨⟨1, 1, -1⟩, ⟨1, 1, 3⟩⟩).2 (by norm_num [dot_product, eps])
  rw [h2]
  norm_num [Plane.signed_distance_to, Plane.d, dot_product, Point.smul,
    Point.ext_iff]

/-! Claim C3: double reflection about a Line and about a Plane. -/

theorem Line.msq_ne_zero (L : Line) (h : L.start ≠ L.endp) :
    (L.endp - L.start).magnitude_squared ≠ 0 := by
  intro hc
  simp only [Point.magnitude_squared, Point.sub_def] at hc
  apply h
  have hx : L.endp.x - L.start.x = 0 := by
    nlinarith [mul_self_nonneg (L.endp.x - L.start.x),
      mul_self_nonneg (L.endp.y - L.start.y), mul_self_nonneg (L.endp.z - L.start.z)]
  have hy : L.endp.y - L.start.y = 0 := by
    nlinarith [mul_self_nonneg (L.endp.x - L.start.x),
      mul_self_nonneg (L.endp.y - L.start.y), mul_self_nonneg (L.endp.z - L.start.z)]
  have hz : L.endp.z - L.start.z = 0 := by
    nlinarith [mul_self_nonneg (L.endp.x - L.start.x),
      mul_self_nonneg (L.endp.y - L.start.y), mul_self_nonneg (L.endp.z - L.start.z)]
  ext <;> linarith

theorem Line.project_eq_param (L : Line) (p : Point)
    (h0 : 0 ≤ L.tparam p) (h1 : L.tparam p ≤ 1) :
    L.project p = L.start + (L.endp - L.start).smul (L.tparam p) := by
  simp only [Line.project, Line.tparam] at *
  split_ifs with hle hge
  · have ht : dot_product (p - L.start) (L.endp - L.start) /
        (L.endp - L.start).magnitude_squared = 0 := le_antisymm hle h0
    rw [ht]
    ext <;> simp [Point.smul]
  · have ht : dot_product (p - L.start) (L.endp - L.start) /
        (L.endp - L.start).magnitude_squared = 1 := le_antisymm h1 hge
    rw [ht]
    ext <;> simp [Point.smul]
  · rfl

theorem Line.tparam_reflect (L : Line) (p : Point)
    (hm : (L.endp - L.start).magnitude_squared ≠ 0)
    (h0 : 0 ≤ L.tparam p) (h1 : L.tparam p ≤ 1) :
    L.tparam (L.reflect p) = L.tparam p := by
  rw [Line.reflect, Line.project_eq_param L p h0 h1]
  simp only [Line.tparam, Point.magnitude_squared, Point.sub_def, Point.add_def,
    Point.smul, dot_product] at *
  field_simp
  ring

theorem Plane.dot_normal_of_unit (P : Plane) (hn : P.normal.magnitude = 1) :
    dot_product P.normal P.normal = 1 := by
  have hs0 : 0 ≤ P.normal.x ^ 2 + P.normal.y ^ 2 + P.normal.z ^ 2 := by positivity
  have hs : P.normal.x ^ 2 + P.normal.y ^ 2 + P.normal.z ^ 2 = 1 := by
    have h3 := congrArg (fun r => r ^ 2) hn
    simpa [Point.magnitude, Real.sq_sqrt hs0] using h3
  unfold dot_product
  linear_combination hs

theorem Plane.sd_reflect (P : Plane) (hdot : dot_product P.normal P.normal = 1)
    (p : Point) :
    P.signed_distance_to (P.reflect p) = -(P.signed_distance_to p) := by
  simp only [dot_product] at hdot
  simp only [Plane.signed_distance_to, Plane.reflect, Plane.d, dot_product,
    Point.smul, Point.sub_def]
  linear_combination (-2 * (P.normal.x * p.x + P.normal.y * p.y +
    P.normal.z * p.z - (P.normal.x * P.point.x + P.normal.y * P.point.y +
    P.normal.z * P.point.z))) * hdot

/-- Claim C3 (amended): double reflection is the identity for a Plane
whose normal is unit length (the construction invariant), exactly; for a
non-degenerate Line it is the identity exactly for the points whose
projection parameter t already lies in [0, 1] — the clamping in
`Line::project` breaks the involution for every other point. -/
theorem reflect_reflect_id :
    (∀ (L : Line) (p : Point), L.start ≠ L.endp →
      0 ≤ L.tparam p → L.tparam p ≤ 1 → L.reflect (L.reflect p) = p)
    ∧ (∀ (P : Plane) (p : Point), P.normal.magnitude = 1 →
      P.reflect (P.reflect p) = p) := by
  constructor
  · intro L p hne h0 h1
    have hm := Line.msq_ne_zero L hne
    have ht' := Line.tparam_reflect L p hm h0 h1
    conv_lhs => rw [Line.reflect]
    rw [Line.project_eq_param L (L.reflect p) (by rw [ht']; exact h0)
      (by rw [ht']; exact h1), ht']
    rw [Line.reflect, Line.project_eq_param L p h0 h1]
    ext <;> simp [Point.smul]
  · intro P p hn
    have hdot := Plane.dot_normal_of_unit P hn
    conv_lhs => rw [Plane.reflect, Plane.sd_reflect P hdot p]
    rw [Plane.reflect]
    ext <;> simp [Point.smul]

/-- Witness for C3 (amended): applies the theorem to the segment
(0,0,0)-(2,0,0) with the point (1,1,0) (parameter 1/2) and to the plane
with unit normal (0,0,1) through the origin with the point (3,4,5). -/
theorem reflect_reflect_id_witness :
    (⟨⟨0, 0, 0⟩, ⟨2, 0, 0⟩⟩ : Line).reflect
      ((⟨⟨0, 0, 0⟩, ⟨2, 0, 0⟩⟩ : Line).reflect ⟨1, 1, 0⟩) = ⟨1, 1, 0⟩
    ∧ (⟨⟨0, 0, 0⟩, ⟨0, 0, 1⟩⟩ : Plane).reflect
      ((⟨⟨0, 0, 0⟩, ⟨0, 0, 1⟩⟩ : Plane).reflect ⟨3, 4, 5⟩) = ⟨3, 4, 5⟩ := by
  constructor
  · exact reflect_reflect_id.1 ⟨⟨0, 0, 0⟩, ⟨2, 0, 0⟩⟩ ⟨1, 1, 0⟩
      (by simp [Point.ext_iff])
      (by norm_num [Line.tparam, dot_product, Point.magnitude_squared])
      (by norm_num [Line.tparam, dot_product, Point.magnitude_squared])
  · refine reflect_reflect_id.2 ⟨⟨0, 0, 0⟩, ⟨0, 0, 1⟩⟩ ⟨3, 4, 5⟩ ?_
    simp only [Point.magnitude]
    norm_num [Real.sqrt_one]

/-- Counterexample to C3 as stated: reflecting (-1,0,0) twice about the
non-degenerate segment (0,0,0)-(1,0,0) yields (1,0,0), at distance 2
from the original point — far beyond epsilon — because the projection
parameter is clamped. -/
theorem line_reflect_not_involutive :
    (⟨⟨0, 0, 0⟩, ⟨1, 0, 0⟩⟩ : Line).start ≠ (⟨⟨0, 0, 0⟩, ⟨1, 0, 0⟩⟩ : Line).endp
    ∧ (⟨⟨0, 0, 0⟩, ⟨1, 0, 0⟩⟩ : Line).reflect
      ((⟨⟨0, 0, 0⟩, ⟨1, 0, 0⟩⟩ : Line).reflect ⟨-1, 0, 0⟩) = ⟨1, 0, 0⟩
    ∧ eps < Point.distance_to ⟨1, 0, 0⟩ ⟨-1, 0, 0⟩ := by
  refine ⟨by simp [Point.ext_iff], ?_, ?_⟩
  · norm_num [Line.reflect, Line.project, dot_product, Point.magnitude_squared,
      Point.smul, Point.ext_iff]
  · have hd : Point.distance_to ⟨1, 0, 0⟩ ⟨-1, 0, 0⟩ = 2 := by
      simp only [Point.distance_to]
      rw [show ((1 : ℝ) - -1) ^ 2 + ((0 : ℝ) - 0) ^ 2 + ((0 : ℝ) - 0) ^ 2 =
        (2 : ℝ) ^ 2 by norm_num]
      exact Real.sqrt_sq (by norm_num)
    rw [hd]
    norm_num [eps]

/-! Claim C4: behaviour of `Polygon::is_convex`. -/

theorem isConvexGo_true_eq_all (s : Bool) (l : List ℝ) :
    isConvexGo s true l = l.all fun c => decide (c > 0) == s := by
  induction l with
  | nil => simp [isConvexGo]
  | cons c rest ih =>
    by_cases h : decide (c > 0) = s
    · have hbeq : (decide (c > 0) == s) = true := by simp [h]
      simp [isConvexGo, h, hbeq, ih]
    · have hbeq : (decide (c > 0) == s) = false := by
        simp [h]
      simp [isConvexGo, h, hbeq]

theorem convexSigns_length (P : Polygon) :
    P.convexSigns.length = P.vertices.length := by
  simp [Polygon.convexSigns]

/-- Claim C4 (amended): for 3 or more vertices, `is_convex` compares
EVERY triple's flag (cross_z > 0) against the flag of the FIRST triple:
the first triple establishes the orientation even when its cross product
is zero, and a later zero cross product counts as a non-positive flag
rather than being skipped. Fewer than 3 vertices is never convex. -/
theorem is_convex_first_triple_sets_flag (P : Polygon)
    (h : 3 ≤ P.vertices.length) :
    P.is_convex = true ↔
      ∀ c ∈ P.convexSigns, (0 < c ↔ 0 < P.convexSigns.headD 0) := by
  obtain ⟨c0, rest, hcs⟩ : ∃ c0 rest, P.convexSigns = c0 :: rest := by
    cases hc : P.convexSigns with
    | nil =>
      have hlen := convexSigns_length P
      rw [hc] at hlen
      simp at hlen
      omega
    | cons a l => exact ⟨a, l, rfl⟩
  have hnotlt : ¬(P.vertices.length < 3) := not_lt.mpr h
  rw [Polygon.is_convex, if_neg hnotlt, hcs]
  have hstep : isConvexGo false false (c0 :: rest) =
      isConvexGo (decide (c0 > 0)) true rest := by
    simp [isConvexGo]
  rw [hstep, isConvexGo_true_eq_all, List.all_eq_true]
  simp only [List.headD_cons]
  constructor
  · intro hall c hc
    rw [List.mem_cons] at hc
    rcases hc with rfl | hc
    · exact Iff.rfl
    · have hb := hall c hc
      rw [beq_iff_eq, decide_eq_decide] at hb
      exact hb
  · intro hiff c hc
    have hb := hiff c (List.mem_cons_of_mem _ hc)
    rw [beq_iff_eq, decide_eq_decide]
    exact hb

/-- Witness for C4 (amended): the triangle (0,0,0), (1,0,0), (0,1,0)
has all three cross products equal to 1 and is reported convex. -/
theorem is_convex_first_triple_sets_flag_witness :
    Polygon.is_convex ⟨[⟨0, 0, 0⟩, ⟨1, 0, 0⟩, ⟨0, 1, 0⟩]⟩ = true := by
  rw [is_convex_first_triple_sets_flag ⟨[⟨0, 0, 0⟩, ⟨1, 0, 0⟩, ⟨0, 1, 0⟩]⟩
    (by simp)]
  have hr : List.range 3 = [0, 1, 2] := rfl
  have hsigns : Polygon.convexSigns ⟨[⟨0, 0, 0⟩, ⟨1, 0, 0⟩, ⟨0, 1, 0⟩]⟩ =
      [1, 1, 1] := by
    norm_num [Polygon.convexSigns, hr, Polygon.vertexAt, crossZ, List.getD]
  rw [hsigns]
  intro c hc
  simp at hc
  subst hc
  exact Iff.rfl

/-- Counterexample to C4 as stated: the convex pentagon (0,0), (1,0),
(2,0), (2,1), (0,1) has cross products [0, 1, 2, 2, 1]; every non-zero
cross product is positive, so the claim's description reports convex,
but the code seeds the orientation flag from the FIRST (zero) cross
product and returns false at the first positive one. -/
theorem is_convex_zero_first_cross_counterexample :
    Polygon.is_convex ⟨[⟨0, 0, 0⟩, ⟨1, 0, 0⟩, ⟨2, 0, 0⟩, ⟨2, 1, 0⟩, ⟨0, 1, 0⟩]⟩
      = false
    ∧ Polygon.isConvexClaim
      ⟨[⟨0, 0, 0⟩, ⟨1, 0, 0⟩, ⟨2, 0, 0⟩, ⟨2, 1, 0⟩, ⟨0, 1, 0⟩]⟩ = true := by
  have hr : List.range 5 = [0, 1, 2, 3, 4] := rfl
  have hsigns : Polygon.convexSigns
      ⟨[⟨0, 0, 0⟩, ⟨1, 0, 0⟩, ⟨2, 0, 0⟩, ⟨2, 1, 0⟩, ⟨0, 1, 0⟩]⟩ =
      [0, 1, 2, 2, 1] := by
    simp [Polygon.convexSigns, hr, Polygon.vertexAt, crossZ, List.getD]
    norm_num
  constructor
  · rw [Polygon.is_convex, if_neg (by simp), hsigns]
    have h0 : decide ((0 : ℝ) > 0) = false := by simp
    have h1 : decide ((1 : ℝ) > 0) = true := by norm_num
    simp [isConvexGo, h0, h1]
  · rw [Polygon.isConvexClaim, if_neg (by simp), hsigns]
    have hf : List.filter (fun c => decide (c ≠ 0)) [(0 : ℝ), 1, 2, 2, 1] =
        [1, 2, 2, 1] := by
      norm_num [List.filter]
    rw [hf]
    norm_num

/-! Claim C5: plane constructors normalize and validate. -/

theorem mag_ne_zero_of_not_lt_eps (p : Point) (hm : ¬ p.magnitude < eps) :
    p.magnitude ≠ 0 := by
  intro h0
  apply hm
  rw [h0]
  exact eps_pos

/-- Claim C5: each of the three plane constructors rejects degenerate
input (normal or coefficient vector of magnitude below 1e-6, or three
points whose edge-vector cross product has magnitude below 1e-6) with
an InvalidArgument error, and every plane any of them produces has a
unit-length normal. -/
theorem plane_constructors_unit_normal :
    (∀ n pt : Point,
      (planeFromNormalPoint n pt = .error .invalidArgument ↔
        n.magnitude < eps)
      ∧ ∀ P, planeFromNormalPoint n pt = .ok P → P.normal.magnitude = 1)
    ∧ (∀ p1 p2 p3 : Point,
      (planeFromPoints p1 p2 p3 = .error .invalidArgument ↔
        (cross_product (p2 - p1) (p3 - p1)).magnitude < eps)
      ∧ ∀ P, planeFromPoints p1 p2 p3 = .ok P → P.normal.magnitude = 1)
    ∧ (∀ a b c d : ℝ,
      (planeFromCoefficients a b c d = .error .invalidArgument ↔
        (Point.mk a b c).magnitude < eps)
      ∧ ∀ P, planeFromCoefficients a b c d = .ok P → P.normal.magnitude = 1) := by
  refine ⟨fun n pt => ?_, fun p1 p2 p3 => ?_, fun a b c d => ?_⟩
  · simp only [planeFromNormalPoint]
    constructor
    · constructor
      · intro h
        by_contra hm
        rw [if_neg hm] at h
        exact Except.noConfusion h
      · intro hm
        rw [if_pos hm]
    · intro P hP
      by_cases hm : n.magnitude < eps
      · rw [if_pos hm] at hP
        exact Except.noConfusion hP
      · rw [if_neg hm] at hP
        have hPe : (⟨pt, n.divScalar n.magnitude⟩ : Plane) = P :=
          (Except.ok.injEq _ _).mp hP
        rw [← hPe]
        exact Point.divScalar_magnitude_unit n (mag_ne_zero_of_not_lt_eps n hm)
  · simp only [planeFromPoints]
    constructor
    · constructor
      · intro h
        by_contra hm
        rw [if_neg hm] at h
        exact Except.noConfusion h
      · intro hm
        rw [if_pos hm]
    · intro P hP
      by_cases hm : (cross_product (p2 - p1) (p3 - p1)).magnitude < eps
      · rw [if_pos hm] at hP
        exact Except.noConfusion hP
      · rw [if_neg hm] at hP
        have hPe : (⟨p1, (cross_product (p2 - p1) (p3 - p1)).divScalar
            (cross_product (p2 - p1) (p3 - p1)).magnitude⟩ : Plane) = P :=
          (Except.ok.injEq _ _).mp hP
        rw [← hPe]
        exact Point.divScalar_magnitude_unit _ (mag_ne_zero_of_not_lt_eps _ hm)
  · simp only [planeFromCoefficients]
    constructor
    · constructor
      · intro h
        by_contra hm
        rw [if_neg hm] at h
        exact Except.noConfusion h
      · intro hm
        rw [if_pos hm]
    · intro P hP
      by_cases hm : (Point.mk a b c).magnitude < eps
      · rw [if_pos hm] at hP
        exact Except.noConfusion hP
      · rw [if_neg hm] at hP
        have hPe : (⟨coeffPoint a b c d, (Point.mk a b c).divScalar
            (Point.mk a b c).magnitude⟩ : Plane) = P :=
          (Except.ok.injEq _ _).mp hP
        rw [← hPe]
        exact Point.divScalar_magnitude_unit _ (mag_ne_zero_of_not_lt_eps _ hm)

/-- Witness for C5: concrete accepted inputs for all three constructors,
each producing a plane whose normal has magnitude 1. -/
theorem plane_constructors_unit_normal_witness :
    planeFromNormalPoint ⟨0, 0, 2⟩ ⟨5, 6, 7⟩ = .ok ⟨⟨5, 6, 7⟩, ⟨0, 0, 1⟩⟩
    ∧ (Plane.mk ⟨5, 6, 7⟩ ⟨0, 0, 1⟩).normal.magnitude = 1
    ∧ planeFromPoints ⟨0, 0, 0⟩ ⟨1, 0, 0⟩ ⟨0, 1, 0⟩ =
      .ok ⟨⟨0, 0, 0⟩, ⟨0, 0, 1⟩⟩
    ∧ (Plane.mk ⟨0, 0, 0⟩ ⟨0, 0, 1⟩).normal.magnitude = 1 := by
  have hm2 : Point.magnitude ⟨0, 0, 2⟩ = 2 := by
    simp only [Point.magnitude]
    rw [show (0 : ℝ) ^ 2 + (0 : ℝ) ^ 2 + (2 : ℝ) ^ 2 = (2 : ℝ) ^ 2 by norm_num]
    exact Real.sqrt_sq (by norm_num)
  have hdiv2 : Point.divScalar ⟨0, 0, 2⟩ 2 = ⟨0, 0, 1⟩ := by
    norm_num [Point.divScalar, Point.smul, Point.ext_iff]
  have hok1 : planeFromNormalPoint ⟨0, 0, 2⟩ ⟨5, 6, 7⟩ =
      .ok ⟨⟨5, 6, 7⟩, ⟨0, 0, 1⟩⟩ := by
    unfold planeFromNormalPoint
    rw [hm2, if_neg (by norm_num [eps]), hdiv2]
  have hcross : cross_product ((⟨1, 0, 0⟩ : Point) - ⟨0, 0, 0⟩)
      ((⟨0, 1, 0⟩ : Point) - ⟨0, 0, 0⟩) = ⟨0, 0, 1⟩ := by
    simp [cross_product, Point.ext_iff]
  have hm1 : Point.magnitude ⟨0, 0, 1⟩ = 1 := by
    simp only [Point.magnitude]
    norm_num [Real.sqrt_one]
  have hdiv1 : Point.divScalar ⟨0, 0, 1⟩ 1 = ⟨0, 0, 1⟩ := by
    simp [Point.divScalar, Point.smul, Point.ext_iff]
  have hok2 : planeFromPoints ⟨0, 0, 0⟩ ⟨1, 0, 0⟩ ⟨0, 1, 0⟩ =
      .ok ⟨⟨0, 0, 0⟩, ⟨0, 0, 1⟩⟩ := by
    simp only [planeFromPoints, hcross]
    rw [hm1, if_neg (by norm_num [eps]), hdiv1]
  refine ⟨hok1, ?_, hok2, ?_⟩
  · exact (plane_constructors_unit_normal.1 ⟨0, 0, 2⟩ ⟨5, 6, 7⟩).2 _ hok1
  · exact (plane_constructors_unit_normal.2.1 ⟨0, 0, 0⟩ ⟨1, 0, 0⟩ ⟨0, 1, 0⟩).2 _ hok2

/-! Claim C6: the coefficient constructor's recovered point. -/

/-- Claim C6 (amended): when the LARGEST coefficient magnitude exceeds
1e-6 (a strictly stronger precondition than the constructor's own check
that the coefficient vector's euclidean norm is at least 1e-6), the
branch taken divides by a coefficient of that largest magnitude, the
divisor is non-zero, and the recovered point — whose two other
coordinates are zero — satisfies a*x + b*y + c*z + d = 0. -/
theorem coeff_point_solves_equation (a b c d : ℝ)
    (h : eps < max |a| (max |b| |c|)) :
    coeffDivisor a b c ≠ 0
    ∧ |coeffDivisor a b c| = max |a| (max |b| |c|)
    ∧ a * (coeffPoint a b c d).x + b * (coeffPoint a b c d).y +
      c * (coeffPoint a b c d).z + d = 0 := by
  unfold coeffDivisor coeffPoint
  split_ifs with h1 h2
  · obtain ⟨hab, hac, ha⟩ := h1
    have ha0 : a ≠ 0 := by
      intro hc
      rw [hc, abs_zero] at ha
      exact absurd ha (not_lt.mpr (le_of_lt eps_pos))
    refine ⟨ha0, (max_eq_left (max_le hab hac)).symm, ?_⟩
    simp only
    field_simp
    ring
  · obtain ⟨hba, hbc, hb⟩ := h2
    have hb0 : b ≠ 0 := by
      intro hc
      rw [hc, abs_zero] at hb
      exact absurd hb (not_lt.mpr (le_of_lt eps_pos))
    have hmax : max |a| (max |b| |c|) = |b| := by
      rw [max_eq_left hbc, max_eq_right hba]
    refine ⟨hb0, by rw [hmax], ?_⟩
    simp only
    field_simp
    ring
  · have hmax : max |a| (max |b| |c|) = |c| := by
      rcases le_total |a| |b| with hab | hba
      · rcases le_total |b| |c| with hbc | hcb
        · rw [max_eq_right hbc, max_eq_right (hab.trans hbc)]
        · exfalso
          have hm : max |a| (max |b| |c|) = |b| := by
            rw [max_eq_left hcb, max_eq_right hab]
          exact h2 ⟨hab, hcb, by rw [hm] at h; exact h⟩
      · rcases le_total |a| |c| with hac | hca
        · rw [max_eq_right (hba.trans hac), max_eq_right hac]
        · exfalso
          have hm : max |a| (max |b| |c|) = |a| := max_eq_left (max_le hba hca)
          exact h1 ⟨hba, hca, by rw [hm] at h; exact h⟩
    have hc' : eps < |c| := by rw [hmax] at h; exact h
    have hc0 : c ≠ 0 := by
      intro hc
      rw [hc, abs_zero] at hc'
      exact absurd hc' (not_lt.mpr (le_of_lt eps_pos))
    refine ⟨hc0, by rw [hmax], ?_⟩
    simp only
    field_simp
    ring

/-- Witness for C6 (amended): the coefficients (0, 0, 2, -4) select the
z-axis, dividing by 2, and the recovered point (0, 0, 2) satisfies the
plane equation. -/
theorem coeff_point_solves_equation_witness :
    eps < max |(0 : ℝ)| (max |(0 : ℝ)| |(2 : ℝ)|)
    ∧ coeffDivisor 0 0 2 ≠ 0
    ∧ (0 : ℝ) * (coeffPoint 0 0 2 (-4)).x + (0 : ℝ) * (coeffPoint 0 0 2 (-4)).y +
      (2 : ℝ) * (coeffPoint 0 0 2 (-4)).z + (-4 : ℝ) = 0 := by
  have hmax : eps < max |(0 : ℝ)| (max |(0 : ℝ)| |(2 : ℝ)|) := by
    norm_num [eps]
  obtain ⟨h1, _, h3⟩ := coeff_point_solves_equation 0 0 2 (-4) hmax
  exact ⟨hmax, h1, h3⟩

/-- Counterexample to C6 as stated: the coefficients (1e-6, 0, 0, 1)
have a coefficient vector of magnitude exactly 1e-6, so the constructor
accepts them, but every branch guard `> 1e-6` fails, the fall-through
branch divides by c = 0, and the recovered point does not satisfy the
plane equation. -/
theorem coeff_divisor_zero_at_threshold :
    eps ≤ (Point.mk 1e-6 0 0).magnitude
    ∧ planeFromCoefficients 1e-6 0 0 1 ≠ .error .invalidArgument
    ∧ coeffDivisor 1e-6 0 0 = 0
    ∧ (1e-6 : ℝ) * (coeffPoint 1e-6 0 0 1).x +
      (0 : ℝ) * (coeffPoint 1e-6 0 0 1).y +
      (0 : ℝ) * (coeffPoint 1e-6 0 0 1).z + 1 ≠ 0 := by
  have hm : Point.magnitude ⟨1e-6, 0, 0⟩ = 1e-6 := by
    simp only [Point.magnitude]
    rw [show (1e-6 : ℝ) ^ 2 + (0 : ℝ) ^ 2 + (0 : ℝ) ^ 2 = (1e-6 : ℝ) ^ 2 by ring]
    exact Real.sqrt_sq (by norm_num)
  have hcond1 : ¬(|(1e-6 : ℝ)| ≥ |(0 : ℝ)| ∧ |(1e-6 : ℝ)| ≥ |(0 : ℝ)| ∧
      |(1e-6 : ℝ)| > eps) := by
    norm_num [eps]
    rw [abs_of_pos (show (0 : ℝ) < 1 / 1000000 by norm_num)]
  have hcond2 : ¬(|(0 : ℝ)| ≥ |(1e-6 : ℝ)| ∧ |(0 : ℝ)| ≥ |(0 : ℝ)| ∧
      |(0 : ℝ)| > eps) := by
    norm_num [eps]
  refine ⟨by rw [hm]; norm_num [eps], ?_, ?_, ?_⟩
  · simp only [planeFromCoefficients]
    rw [hm, if_neg (by norm_num [eps])]
    simp
  · unfold coeffDivisor
    rw [if_neg hcond1, if_neg hcond2]
  · have hp : coeffPoint 1e-6 0 0 1 = ⟨0, 0, 0⟩ := by
      unfold coeffPoint
      rw [if_neg hcond1, if_neg hcond2]
      norm_num [Point.ext_iff]
    rw [hp]
    norm_num

/-! Claim C7: `Line::project` clamps to the segment. -/

/-- Claim C7: for a non-degenerate segment, `project` computes the
parameter t = dot(p - start, end - start) / magnitude_squared(end - start)
and clamps it to [0, 1] — returning start when t ≤ 0 and end when
t ≥ 1 — so the returned point always lies on the finite segment. -/
theorem project_clamps_to_segment (L : Line) (p : Point)
    (h : L.start ≠ L.endp) :
    L.project p = L.start + (L.endp - L.start).smul (min 1 (max 0 (L.tparam p)))
    ∧ ∃ u, 0 ≤ u ∧ u ≤ 1 ∧
      L.project p = L.start + (L.endp - L.start).smul u := by
  have hmain : L.project p =
      L.start + (L.endp - L.start).smul (min 1 (max 0 (L.tparam p))) := by
    simp only [Line.project, Line.tparam]
    split_ifs with hle hge
    · rw [max_eq_left hle, min_eq_right (by norm_num : (0 : ℝ) ≤ 1)]
      ext <;> simp [Point.smul]
    · rw [max_eq_right (le_of_lt (not_le.mp hle)), min_eq_left hge]
      ext <;> simp [Point.smul]
    · rw [max_eq_right (le_of_lt (not_le.mp hle)),
        min_eq_right (le_of_lt (not_le.mp hge))]
  exact ⟨hmain, min 1 (max 0 (L.tparam p)),
    le_min (by norm_num) (le_max_left _ _), min_le_left _ _, hmain⟩

/-- Witness for C7: projecting (5,1,0) onto the segment (0,0,0)-(2,0,0)
computes t = 5/2, clamps it to 1, and returns the endpoint (2,0,0). -/
theorem project_clamps_to_segment_witness :
    (⟨⟨0, 0, 0⟩, ⟨2, 0, 0⟩⟩ : Line).project ⟨5, 1, 0⟩ = ⟨2, 0, 0⟩
    ∧ ∃ u, 0 ≤ u ∧ u ≤ 1 ∧
      (⟨⟨0, 0, 0⟩, ⟨2, 0, 0⟩⟩ : Line).project ⟨5, 1, 0⟩ =
        (⟨⟨0, 0, 0⟩, ⟨2, 0, 0⟩⟩ : Line).start +
          ((⟨⟨0, 0, 0⟩, ⟨2, 0, 0⟩⟩ : Line).endp -
            (⟨⟨0, 0, 0⟩, ⟨2, 0, 0⟩⟩ : Line).start).smul u := by
  have h := project_clamps_to_segment ⟨⟨0, 0, 0⟩, ⟨2, 0, 0⟩⟩ ⟨5, 1, 0⟩
    (by simp [Point.ext_iff])
  have ht : Line.tparam ⟨⟨0, 0, 0⟩, ⟨2, 0, 0⟩⟩ ⟨5, 1, 0⟩ = 5 / 2 := by
    norm_num [Line.tparam, dot_product, Point.magnitude_squared]
  refine ⟨?_, h.2⟩
  rw [h.1, ht, show max (0 : ℝ) (5 / 2) = 5 / 2 from max_eq_right (by norm_num),
    show min (1 : ℝ) (5 / 2) = 1 from min_eq_left (by norm_num)]
  norm_num [Point.smul, Point.ext_iff]

/-! Claim C8: `Polygon::centroid` degenerate fallback. -/

/-- Evaluation of `Polygon::centroid` at the self-intersecting bowtie
(0,0), (1,0), (0,1), (1,1): the signed area accumulates to zero, the
degenerate branch is taken, and the result is (1/2, 1/3, 0) — the
vertex average (1/2, 1/2, 0) PLUS the stale weighted accumulator
(0, -1/6, 0) — not the unweighted vertex average the code's own comment
and the claim promise. -/
theorem centroid_degenerate_adds_average :
    Polygon.centroid ⟨[⟨0, 0, 0⟩, ⟨1, 0, 0⟩, ⟨0, 1, 0⟩, ⟨1, 1, 0⟩]⟩ =
      .ok ⟨1 / 2, 1 / 3, 0⟩
    ∧ Polygon.centroid ⟨[⟨0, 0, 0⟩, ⟨1, 0, 0⟩, ⟨0, 1, 0⟩, ⟨1, 1, 0⟩]⟩ ≠
      .ok ⟨1 / 2, 1 / 2, 0⟩ := by
  have heval : Polygon.centroid ⟨[⟨0, 0, 0⟩, ⟨1, 0, 0⟩, ⟨0, 1, 0⟩, ⟨1, 1, 0⟩]⟩ =
      .ok ⟨1 / 2, 1 / 3, 0⟩ := by
    norm_num [Polygon.centroid, Polygon.cyclicPairs, eps, Point.ext_iff]
  refine ⟨heval, ?_⟩
  rw [heval]
  simp [Point.ext_iff]

/-! Claim C9: totality of the line-line utility functions. -/

/-- Claim C9: `Line::direction` fails (with the normalization
DomainError) exactly on a zero-length segment, and whenever both
segments have distinct endpoints, `geometry::utils::distance(Line,Line)`
and `geometry::utils::intersection(Line,Line)` cannot reach that failure
branch: both succeed on every such input. -/
theorem utils_line_ops_total :
    (∀ L : Line, L.start = L.endp → L.direction = .error .domainError)
    ∧ ∀ l1 l2 : Line, l1.start ≠ l1.endp → l2.start ≠ l2.endp →
      (∃ r, utils.distanceLL l1 l2 = .ok r) ∧
      (∃ o, utils.intersectionLL l1 l2 = .ok o) := by
  constructor
  · exact fun L h => Line.direction_err L h
  · intro l1 l2 h1 h2
    obtain ⟨d1, hd1⟩ := Line.direction_ok l1 h1
    obtain ⟨d2, hd2⟩ := Line.direction_ok l2 h2
    constructor
    · simp only [utils.distanceLL, hd1, hd2]
      split_ifs <;> exact ⟨_, rfl⟩
    · simp only [utils.intersectionLL, hd1, hd2]
      split_ifs <;> exact ⟨_, rfl⟩

/-- Witness for C9: a degenerate segment makes `direction` fail, and
two concrete non-degenerate segments make both utility functions
succeed. -/
theorem utils_line_ops_total_witness :
    Line.direction ⟨⟨2, 2, 2⟩, ⟨2, 2, 2⟩⟩ = .error .domainError
    ∧ (∃ r, utils.distanceLL ⟨⟨0, 0, 0⟩, ⟨1, 0, 0⟩⟩ ⟨⟨0, 1, 0⟩, ⟨0, 1, 1⟩⟩ =
        .ok r)
    ∧ (∃ o, utils.intersectionLL ⟨⟨0, 0, 0⟩, ⟨1, 0, 0⟩⟩ ⟨⟨0, 1, 0⟩, ⟨0, 1, 1⟩⟩ =
        .ok o) := by
  refine ⟨utils_line_ops_total.1 ⟨⟨2, 2, 2⟩, ⟨2, 2, 2⟩⟩ rfl, ?_, ?_⟩
  · exact (utils_line_ops_total.2 ⟨⟨0, 0, 0⟩, ⟨1, 0, 0⟩⟩ ⟨⟨0, 1, 0⟩, ⟨0, 1, 1⟩⟩
      (by simp [Point.ext_iff]) (by simp [Point.ext_iff])).1
  · exact (utils_line_ops_total.2 ⟨⟨0, 0, 0⟩, ⟨1, 0, 0⟩⟩ ⟨⟨0, 1, 0⟩, ⟨0, 1, 1⟩⟩
      (by simp [Point.ext_iff]) (by simp [Point.ext_iff])).2

/-! Claim C10: `Polygon::bounding_box` on the empty polygon. -/

/-- Claim C10: the empty polygon's bounding box is the sentinel pair
((0,0,0), (0,0,0)) — no failure, no optional — and it is identical to
the bounding box of the degenerate polygon sitting at the origin. -/
theorem bounding_box_empty_sentinel :
    Polygon.bounding_box ⟨[]⟩ = (⟨0, 0, 0⟩, ⟨0, 0, 0⟩)
    ∧ Polygon.bounding_box ⟨[⟨0, 0, 0⟩]⟩ = Polygon.bounding_box ⟨[]⟩ := by
  constructor
  · rfl
  · simp [Polygon.bounding_box, Point.ext_iff]

end Geometry
